import Mathlib

/-!
# Lumina Gallery — Quota Ledger & Upload Queue Engine

Shallow embedding of the storage-quota / check-in / upload-scheduling logic of
the Lumina Gallery application (the feature-complete variant of `App.tsx`).

Modelling conventions:

* JS `number` timestamps (epoch milliseconds) are `Int`.
* Local midnight (`new Date(y, m, d).getTime()`) is modelled as flooring the
  timestamp to a multiple of `ONE_DAY_MS` (i.e. a UTC-like calendar with
  fixed-length days and no DST).  For a positive divisor, JS
  `Math.floor(a / b)` agrees with Lean's Euclidean `Int` division `a / b`.
* `MediaItem.id` values produced by `Math.random().toString(36)` are modelled
  as fresh naturals handed out by a per-batch counter (the only property the
  program relies on is freshness).
* React state captured in closures: the upload handler `handleFileUpload` and
  the `processFileItem` helper it calls are created in one render and close
  over that render's `media` array and `currentStorageUsed` memo value.
  `setMedia` never mutates the captured array (it schedules a re-render with a
  new binding), so every file of one batch — immediate lane and queued lane
  alike — is duplicate-checked and admission-checked against the same
  batch-start snapshot.  The embedding therefore threads a fixed `snapshot`
  through the whole batch, while persisted items accumulate in a separate
  growing store.
* `FileReader.readAsDataURL` is a black box producing a string; a `FileData`
  carries that resulting payload string directly.
-/

namespace Lumina

/-- `BASE_STORAGE_BYTES = 2.5 * 1024 * 1024 * 1024` (exactly 2684354560). -/
def BASE_STORAGE_BYTES : Int := 2684354560

/-- `BONUS_PER_CHECKIN = 5 * 1024 * 1024` (5 MB). -/
def BONUS_PER_CHECKIN : Int := 5242880

/-- `PENALTY_PER_MISS = 75 * 1024 * 1024` (75 MB). -/
def PENALTY_PER_MISS : Int := 78643200

/-- `INITIAL_QUEUE_DELAY = 2 * 60 * 1000` (2 minutes, in ms). -/
def INITIAL_QUEUE_DELAY : Nat := 120000

/-- `SEQUENTIAL_DELAY = 2000` (2 seconds, in ms). -/
def SEQUENTIAL_DELAY : Nat := 2000

/-- `1000 * 60 * 60 * 24`, the day length used by `applyDailyLogic`. -/
def ONE_DAY_MS : Int := 86400000

/-- `MediaType` from `types.ts`. -/
inductive MediaType where
  | image
  | video
deriving Repr, DecidableEq

/-- `MediaItem` from `types.ts` (the optional `duration` and the purely
decorative `description` field play no role in the quota engine and are
omitted; random string ids are modelled as naturals). -/
structure MediaItem where
  id : Nat
  userId : String
  type : MediaType
  url : String
  title : String
  timestamp : Int
deriving Repr, DecidableEq

/-- `User` from `types.ts` (the `password` and `isStorageLocked` fields are
unused by the quota engine and omitted).  `bonusStorage` is a signed byte
delta; the code reads it as `user.bonusStorage || 0`, which the non-optional
`Int` field subsumes.  `lastCheckIn` is an optional epoch-ms timestamp. -/
structure User where
  id : String
  email : String
  name : String
  checkInStreak : Nat
  bonusStorage : Int
  lastCheckIn : Option Int
deriving Repr, DecidableEq

/-- `getStorageUsed(user, items)`: sum of `item.url.length` over the items
owned by `user` (the `reduce` over the filtered list). -/
def getStorageUsed (user : User) (items : List MediaItem) : Nat :=
  (items.filter (fun it => it.userId == user.id)).foldl
    (fun acc it => acc + it.url.length) 0

/-- `totalStorageLimit = BASE_STORAGE_BYTES + (currentUser?.bonusStorage || 0)`. -/
def totalStorageLimit (user : User) : Int :=
  BASE_STORAGE_BYTES + user.bonusStorage

/-- Local midnight of a timestamp
(`new Date(d.getFullYear(), d.getMonth(), d.getDate()).getTime()`), under the
fixed-length-day model: floor `t` to a multiple of `ONE_DAY_MS`. -/
def dayStart (t : Int) : Int := t / ONE_DAY_MS * ONE_DAY_MS

/-- Result of `applyDailyLogic`: the persisted user, the surviving media
store, and the `mediaReset` flag. -/
structure ReconcileResult where
  user : User
  media : List MediaItem
  mediaReset : Bool
deriving Repr, DecidableEq

/-- `applyDailyLogic(user, currentMedia)` from `App.tsx`, with the ambient
clock made explicit as `now` (the code reads `new Date()` / `Date.now()`
once per run).  Returns the persisted user, the media store after any
deletions, and the `mediaReset` flag. -/
def applyDailyLogic (now : Int) (user : User) (currentMedia : List MediaItem) :
    ReconcileResult :=
  match user.lastCheckIn with
  | none => ⟨user, currentMedia, false⟩
  | some lc =>
    let todayStart := dayStart now
    let lastStart := dayStart lc
    let diffDays := (todayStart - lastStart) / ONE_DAY_MS
    if 2 ≤ diffDays then
      let missedDaysCount := diffDays - 1
      let usedSpace : Int := getStorageUsed user currentMedia
      let totalPenalty := missedDaysCount * PENALTY_PER_MISS
      let potentialBonus := user.bonusStorage - totalPenalty
      let potentialLimit := BASE_STORAGE_BYTES + potentialBonus
      if potentialLimit < usedSpace then
        ⟨{ user with
            bonusStorage := 0
            checkInStreak := 0
            lastCheckIn := some now },
          currentMedia.filter (fun it => !(it.userId == user.id)), true⟩
      else
        ⟨{ user with
            bonusStorage := potentialBonus
            checkInStreak := 0
            lastCheckIn := some (lc + missedDaysCount * ONE_DAY_MS) },
          currentMedia, false⟩
    else ⟨user, currentMedia, false⟩

/-- Result of `handleCheckIn`: the (possibly updated) user and whether the
call reported "already checked in today". -/
structure CheckInResult where
  user : User
  alreadyCheckedIn : Bool
deriving Repr, DecidableEq

/-- `handleCheckIn` from `App.tsx`, clock explicit.  `lastDayStr` is `0` when
`lastCheckIn` is unset (the code's `last ? ... : 0`; a stored timestamp of
exactly `0` is falsy in JS but `dayStart 0 = 0`, so the branches coincide). -/
def handleCheckIn (now : Int) (user : User) : CheckInResult :=
  let todayStr := dayStart now
  let lastDayStr := (user.lastCheckIn.map dayStart).getD 0
  if todayStr = lastDayStr then ⟨user, true⟩
  else
    ⟨{ user with
        lastCheckIn := some now,
        checkInStreak := user.checkInStreak + 1,
        bonusStorage := user.bonusStorage + BONUS_PER_CHECKIN }, false⟩

/-- An input file as the upload pipeline sees it: `file.name`, `file.type`
(the MIME string), and the data-URL string produced by
`FileReader.readAsDataURL` (`payload`, the future `MediaItem.url`). -/
structure FileData where
  name : String
  mime : String
  payload : String
deriving Repr, DecidableEq

/-- JS `s.startsWith(p)`, modelled as prefix testing on the character lists
of the two strings (extensionally `String.startsWith`, but defined by
structural recursion so that concrete batch runs reduce). -/
def strStartsWith (s p : String) : Bool := p.data.isPrefixOf s.data

/-- Outcome of `processFileItem` for one file.  The source returns `null`
both for unsupported MIME types and for quota rejections (the two are
distinguished here by which branch fired), `{status:'duplicate'}` for
duplicates, and `{status:'success', item}` on success. -/
inductive FileOutcome where
  | unsupported
  | duplicate
  | rejected
  | success (item : MediaItem)
deriving Repr, DecidableEq

/-- `processFileItem(file)` from `App.tsx`.  The React-closure inputs are
explicit parameters: `user` is `currentUser`, `snapshot` is the `media`
array captured by the render that created the handler (used for both the
duplicate check and the `currentStorageUsed` memo), `limit` is
`totalStorageLimit`.  `freshId` models the random id and `nowTs` the
`Date.now()` timestamp of the created item. -/
def processFileItem (user : User) (snapshot : List MediaItem) (limit : Int)
    (freshId : Nat) (nowTs : Int) (file : FileData) : FileOutcome :=
  let isImage := strStartsWith file.mime "image/"
  let isVideo := strStartsWith file.mime "video/"
  if isImage || isVideo then
    let base64Data := file.payload
    if snapshot.any (fun it => it.userId == user.id && it.url == base64Data) then
      .duplicate
    else if limit < (getStorageUsed user snapshot : Int) + base64Data.length then
      .rejected
    else
      .success
        { id := freshId
          userId := user.id
          type := if isImage then .image else .video
          url := base64Data
          title := file.name
          timestamp := nowTs }
  else .unsupported

/-- Observable batch state: the persisted media collection (IndexedDB rows,
equivalently the eventual React `media` state after the functional
`setMedia` updates), the `duplicateCount` counter and the cumulative
progress counter `processProgress.current`. -/
structure BatchState where
  store : List MediaItem
  duplicateCount : Nat
  progress : Nat
deriving Repr, DecidableEq

/-- Effect of processing one file of a batch: a success is persisted
(appended to the store), a duplicate bumps `duplicateCount`, and every file
advances the progress counter (`current: i + 1` in the immediate lane,
`current: 2 + j + 1` in the queued lane). -/
def stepFile (user : User) (snapshot : List MediaItem) (limit : Int)
    (nowTs : Int) (freshId : Nat) (st : BatchState) (file : FileData) :
    BatchState :=
  match processFileItem user snapshot limit freshId nowTs file with
  | .success item =>
    { st with store := st.store ++ [item], progress := st.progress + 1 }
  | .duplicate =>
    { st with duplicateCount := st.duplicateCount + 1, progress := st.progress + 1 }
  | _ => { st with progress := st.progress + 1 }

/-- Process the files of a batch in order (`k` is the index of the next
file, used as its fresh id), always checking against the fixed batch-start
`snapshot`. -/
def runBatchAux (user : User) (snapshot : List MediaItem) (limit : Int)
    (nowTs : Int) : List FileData → Nat → BatchState → BatchState
  | [], _, st => st
  | f :: rest, k, st =>
    runBatchAux user snapshot limit nowTs rest (k + 1)
      (stepFile user snapshot limit nowTs k st f)

/-- Aggregate effect of `handleFileUpload` on the media store and counters
for one batch.  The immediate lane (`files.slice(0,2)`) and the queued lane
(`files.slice(2)`) both process their files strictly in order, so the whole
batch is the in-order fold over `files`; both lanes call the same
`processFileItem` closure, whose `media`/`currentStorageUsed` bindings are
the batch-start snapshot.  `duplicateCount` and `progress` are reset to 0 at
batch start (`setDuplicateCount(0)`, `current: 0`). -/
def runBatch (user : User) (snapshot : List MediaItem) (nowTs : Int)
    (files : List FileData) : BatchState :=
  runBatchAux user snapshot (totalStorageLimit user) nowTs files 0
    ⟨snapshot, 0, 0⟩

/-- Timeline events of `handleFileUpload`: a file processed in the immediate
lane, the one-shot `setTimeout` delay that starts the queued lane, a file
processed in the queued lane, and the inter-file `SEQUENTIAL_DELAY` wait. -/
inductive UploadEvent where
  | immediate (f : FileData)
  | startQueueDelay (ms : Nat)
  | queued (f : FileData)
  | interDelay (ms : Nat)
deriving Repr, DecidableEq

/-- The queued-lane loop: each file, followed by a `SEQUENTIAL_DELAY` wait
except after the last (`if (j < filesToProcess.length - 1)`). -/
def queuedEvents : List FileData → List UploadEvent
  | [] => []
  | [f] => [.queued f]
  | f :: g :: rest =>
    .queued f :: .interDelay SEQUENTIAL_DELAY :: queuedEvents (g :: rest)

/-- The schedule produced by `handleFileUpload` for a batch: the first two
files in the immediate lane in order; then, only if files remain, the
initial queue delay followed by the queued-lane loop over `files.slice(2)`. -/
def uploadSchedule (files : List FileData) : List UploadEvent :=
  (files.take 2).map .immediate ++
    (if files.drop 2 = [] then []
     else .startQueueDelay INITIAL_QUEUE_DELAY :: queuedEvents (files.drop 2))

/-- The files an event schedule processes in the immediate lane, in order. -/
def immediateFiles (evs : List UploadEvent) : List FileData :=
  evs.filterMap fun e =>
    match e with
    | .immediate f => some f
    | _ => none

/-- The files an event schedule processes in the queued lane, in order. -/
def queuedFiles (evs : List UploadEvent) : List FileData :=
  evs.filterMap fun e =>
    match e with
    | .queued f => some f
    | _ => none

/-- Number of inter-file delay events in a schedule. -/
def interDelayCount (evs : List UploadEvent) : Nat :=
  (evs.filter fun e =>
    match e with
    | .interDelay _ => true
    | _ => false).length

/-! ## Helper lemmas -/

theorem dayStart_sub_div (a b : Int) :
    (dayStart a - dayStart b) / ONE_DAY_MS = a / ONE_DAY_MS - b / ONE_DAY_MS := by
  unfold dayStart ONE_DAY_MS
  omega

theorem dayStart_add_mul_day (b k : Int) :
    dayStart (b + k * ONE_DAY_MS) = dayStart b + k * ONE_DAY_MS := by
  unfold dayStart ONE_DAY_MS
  omega

/-- `applyDailyLogic` with `lastCheckIn` unset is the identity. -/
theorem applyDailyLogic_none (now : Int) (user : User) (media : List MediaItem)
    (h : user.lastCheckIn = none) :
    applyDailyLogic now user media = ⟨user, media, false⟩ := by
  simp [applyDailyLogic, h]

/-- `applyDailyLogic` inside the grace period (`diffDays <= 1`) is the
identity. -/
theorem applyDailyLogic_grace (now lc : Int) (user : User) (media : List MediaItem)
    (h : user.lastCheckIn = some lc)
    (h2 : (dayStart now - dayStart lc) / ONE_DAY_MS < 2) :
    applyDailyLogic now user media = ⟨user, media, false⟩ := by
  simp only [applyDailyLogic, h]
  rw [if_neg (by omega)]

/-- The wipe branch of `applyDailyLogic`. -/
theorem applyDailyLogic_wipe (now lc : Int) (user : User) (media : List MediaItem)
    (h : user.lastCheckIn = some lc)
    (h2 : 2 ≤ (dayStart now - dayStart lc) / ONE_DAY_MS)
    (h3 : BASE_STORAGE_BYTES + (user.bonusStorage -
        ((dayStart now - dayStart lc) / ONE_DAY_MS - 1) * PENALTY_PER_MISS)
      < (getStorageUsed user media : Int)) :
    applyDailyLogic now user media =
      ⟨{ user with
          bonusStorage := 0
          checkInStreak := 0
          lastCheckIn := some now },
        media.filter (fun it => !(it.userId == user.id)), true⟩ := by
  simp only [applyDailyLogic, h]
  rw [if_pos h2, if_pos h3]

/-- The penalty branch of `applyDailyLogic`. -/
theorem applyDailyLogic_penalty (now lc : Int) (user : User) (media : List MediaItem)
    (h : user.lastCheckIn = some lc)
    (h2 : 2 ≤ (dayStart now - dayStart lc) / ONE_DAY_MS)
    (h3 : (getStorageUsed user media : Int) ≤
      BASE_STORAGE_BYTES + (user.bonusStorage -
        ((dayStart now - dayStart lc) / ONE_DAY_MS - 1) * PENALTY_PER_MISS)) :
    applyDailyLogic now user media =
      ⟨{ user with
          bonusStorage := user.bonusStorage -
            ((dayStart now - dayStart lc) / ONE_DAY_MS - 1) * PENALTY_PER_MISS
          checkInStreak := 0
          lastCheckIn := some (lc +
            ((dayStart now - dayStart lc) / ONE_DAY_MS - 1) * ONE_DAY_MS) },
        media, false⟩ := by
  simp only [applyDailyLogic, h]
  rw [if_pos h2, if_neg (by omega)]

/-! ## Claims about daily reconciliation -/

/-- C2: for a user whose `lastCheckIn` is set, with
`diffDays = floor((todayStart - lastStart) / ONE_DAY_MS) >= 2` and
`missedDaysCount = diffDays - 1`, if the storage used exceeds
`BASE_STORAGE_BYTES + (bonusStorage - missedDaysCount * PENALTY_PER_MISS)`,
then `applyDailyLogic` deletes every `MediaItem` owned by the user, sets
`bonusStorage = 0`, `checkInStreak = 0` and `lastCheckIn = now`, persists
that user (the returned user is the one passed to `saveUserToDB`), and
returns `mediaReset = true`. -/
theorem reconcile_wipe_deletes_all_media (now lc : Int) (user : User)
    (media : List MediaItem)
    (hlc : user.lastCheckIn = some lc)
    (hdiff : 2 ≤ (dayStart now - dayStart lc) / ONE_DAY_MS)
    (hover : BASE_STORAGE_BYTES + (user.bonusStorage -
        ((dayStart now - dayStart lc) / ONE_DAY_MS - 1) * PENALTY_PER_MISS)
      < (getStorageUsed user media : Int)) :
    applyDailyLogic now user media =
      ⟨{ user with
          bonusStorage := 0
          checkInStreak := 0
          lastCheckIn := some now },
        media.filter (fun it => !(it.userId == user.id)), true⟩ ∧
    ∀ it ∈ (applyDailyLogic now user media).media, it.userId ≠ user.id := by
  refine ⟨applyDailyLogic_wipe now lc user media hlc hdiff hover, ?_⟩
  rw [applyDailyLogic_wipe now lc user media hlc hdiff hover]
  intro it hit
  have := (List.mem_filter.mp hit).2
  simpa using this

theorem reconcile_wipe_deletes_all_media_witness :
    applyDailyLogic (2 * ONE_DAY_MS + 5)
        ⟨"u3", "w@e", "W", 7, -BASE_STORAGE_BYTES, some 5⟩
        [⟨1, "u3", MediaType.image, "xyz", "t", 0⟩] =
      ⟨⟨"u3", "w@e", "W", 0, 0, some (2 * ONE_DAY_MS + 5)⟩, [], true⟩ :=
  (reconcile_wipe_deletes_all_media (2 * ONE_DAY_MS + 5) 5
      ⟨"u3", "w@e", "W", 7, -BASE_STORAGE_BYTES, some 5⟩
      [⟨1, "u3", MediaType.image, "xyz", "t", 0⟩]
      rfl (by decide) (by decide)).1.trans (by decide)

/-- C3: for a user whose `lastCheckIn` is set, with `diffDays >= 2` and
`missedDaysCount = diffDays - 1`, if the storage used does not exceed the
penalised limit, `applyDailyLogic` decreases `bonusStorage` by exactly
`missedDaysCount * PENALTY_PER_MISS`, sets `checkInStreak = 0`, advances
`lastCheckIn` by exactly `missedDaysCount * ONE_DAY_MS` from its original
value, deletes no media, and returns `mediaReset = false`.  (The claim's
`diffDays = 3` instance — a drop of `2 * PENALTY_PER_MISS` and an advance
of two days — is the `missedDaysCount = 2` case, exercised by the
witness.) -/
theorem reconcile_penalty_path (now lc : Int) (user : User)
    (media : List MediaItem)
    (hlc : user.lastCheckIn = some lc)
    (hdiff : 2 ≤ (dayStart now - dayStart lc) / ONE_DAY_MS)
    (hfits : (getStorageUsed user media : Int) ≤
      BASE_STORAGE_BYTES + (user.bonusStorage -
        ((dayStart now - dayStart lc) / ONE_DAY_MS - 1) * PENALTY_PER_MISS)) :
    applyDailyLogic now user media =
      ⟨{ user with
          bonusStorage := user.bonusStorage -
            ((dayStart now - dayStart lc) / ONE_DAY_MS - 1) * PENALTY_PER_MISS
          checkInStreak := 0
          lastCheckIn := some (lc +
            ((dayStart now - dayStart lc) / ONE_DAY_MS - 1) * ONE_DAY_MS) },
        media, false⟩ :=
  applyDailyLogic_penalty now lc user media hlc hdiff hfits

theorem reconcile_penalty_path_witness :
    applyDailyLogic (3 * ONE_DAY_MS + 7) ⟨"u2", "v@e", "V", 7, 0, some 5⟩ [] =
      ⟨⟨"u2", "v@e", "V", 0, -(2 * PENALTY_PER_MISS), some (5 + 2 * ONE_DAY_MS)⟩,
        [], false⟩ :=
  (reconcile_penalty_path (3 * ONE_DAY_MS + 7) 5 ⟨"u2", "v@e", "V", 7, 0, some 5⟩ []
      rfl (by decide) (by decide)).trans (by decide)

/-- C7: if `lastCheckIn` is unset, or `diffDays <= 1` (last check-in today
or yesterday), `applyDailyLogic` leaves `bonusStorage`, `checkInStreak` and
`lastCheckIn` unchanged, deletes no media, and reports
`mediaReset = false`. -/
theorem reconcile_grace_period (now : Int) (user : User) (media : List MediaItem)
    (h : user.lastCheckIn = none ∨ ∃ lc, user.lastCheckIn = some lc ∧
      (dayStart now - dayStart lc) / ONE_DAY_MS ≤ 1) :
    applyDailyLogic now user media = ⟨user, media, false⟩ := by
  rcases h with h | ⟨lc, hlc, hle⟩
  · exact applyDailyLogic_none now user media h
  · exact applyDailyLogic_grace now lc user media hlc (by omega)

theorem reconcile_grace_period_witness :
    applyDailyLogic (ONE_DAY_MS + 50) ⟨"u2", "v@e", "V", 7, 0, some 5⟩ [] =
      ⟨⟨"u2", "v@e", "V", 7, 0, some 5⟩, [], false⟩ :=
  reconcile_grace_period (ONE_DAY_MS + 50) ⟨"u2", "v@e", "V", 7, 0, some 5⟩ []
    (Or.inr ⟨5, rfl, by decide⟩)

/-- C4: reconciliation is idempotent for a fixed `now`: a second
`applyDailyLogic` run on the state produced by the first changes nothing
(the penalty path advances `lastCheckIn` by `missedDaysCount` days, so the
recomputed `diffDays` is `1` — grace — on the repeated invocation; the wipe
path sets `lastCheckIn = now`, giving `diffDays = 0`). -/
theorem reconcile_idempotent (now : Int) (user : User) (media : List MediaItem) :
    applyDailyLogic now (applyDailyLogic now user media).user
        (applyDailyLogic now user media).media =
      ⟨(applyDailyLogic now user media).user,
        (applyDailyLogic now user media).media, false⟩ := by
  cases h : user.lastCheckIn with
  | none =>
    rw [applyDailyLogic_none now user media h]
    exact applyDailyLogic_none now user media h
  | some lc =>
    rcases lt_or_le ((dayStart now - dayStart lc) / ONE_DAY_MS) 2 with h2 | h2
    · rw [applyDailyLogic_grace now lc user media h h2]
      exact applyDailyLogic_grace now lc user media h h2
    · rcases lt_or_le
          (BASE_STORAGE_BYTES + (user.bonusStorage -
            ((dayStart now - dayStart lc) / ONE_DAY_MS - 1) * PENALTY_PER_MISS))
          ((getStorageUsed user media : Int)) with h3 | h3
      · rw [applyDailyLogic_wipe now lc user media h h2 h3]
        refine applyDailyLogic_grace now now _ _ rfl ?_
        simp
      · rw [applyDailyLogic_penalty now lc user media h h2 h3]
        refine applyDailyLogic_grace now
          (lc + ((dayStart now - dayStart lc) / ONE_DAY_MS - 1) * ONE_DAY_MS)
          _ _ rfl ?_
        rw [dayStart_add_mul_day, dayStart_sub_div] at *
        unfold dayStart ONE_DAY_MS at *
        omega

/-! ## Claims about the check-in action -/

/-- The no-op branch of `handleCheckIn`: same calendar day. -/
theorem handleCheckIn_same_day (now : Int) (user : User)
    (h : dayStart now = (user.lastCheckIn.map dayStart).getD 0) :
    handleCheckIn now user = ⟨user, true⟩ := by
  simp only [handleCheckIn]
  rw [if_pos h]

/-- The updating branch of `handleCheckIn`: a new calendar day. -/
theorem handleCheckIn_new_day (now : Int) (user : User)
    (h : dayStart now ≠ (user.lastCheckIn.map dayStart).getD 0) :
    handleCheckIn now user =
      ⟨{ user with
          lastCheckIn := some now
          checkInStreak := user.checkInStreak + 1
          bonusStorage := user.bonusStorage + BONUS_PER_CHECKIN }, false⟩ := by
  simp only [handleCheckIn]
  rw [if_neg h]

/-- C5: check-in succeeds at most once per calendar day.  The first call on
a date whose midnight differs from `lastCheckIn`'s midnight increments
`checkInStreak` by 1, adds `BONUS_PER_CHECKIN` to `bonusStorage`, and sets
`lastCheckIn = now` (the returned user is the one persisted via
`saveUserToDB`); any second call at a time `now2` on the same calendar date
reports "already checked in" and leaves the user unchanged. -/
theorem checkIn_once_per_calendar_day (now t : Int) (user : User)
    (hlc : user.lastCheckIn = some t)
    (hne : dayStart now ≠ dayStart t) :
    handleCheckIn now user =
      ⟨{ user with
          lastCheckIn := some now
          checkInStreak := user.checkInStreak + 1
          bonusStorage := user.bonusStorage + BONUS_PER_CHECKIN }, false⟩ ∧
    ∀ now2 : Int, dayStart now2 = dayStart now →
      handleCheckIn now2 (handleCheckIn now user).user =
        ⟨(handleCheckIn now user).user, true⟩ := by
  have h1 := handleCheckIn_new_day now user (by simpa [hlc] using hne)
  refine ⟨h1, fun now2 hsame => ?_⟩
  rw [h1]
  exact handleCheckIn_same_day now2 _ (by simpa using hsame)

theorem checkIn_once_per_calendar_day_witness :
    handleCheckIn (ONE_DAY_MS + 50) ⟨"u2", "v@e", "V", 7, 0, some 5⟩ =
      ⟨⟨"u2", "v@e", "V", 8, BONUS_PER_CHECKIN, some (ONE_DAY_MS + 50)⟩, false⟩ ∧
    handleCheckIn (ONE_DAY_MS + 900)
        (handleCheckIn (ONE_DAY_MS + 50) ⟨"u2", "v@e", "V", 7, 0, some 5⟩).user =
      ⟨(handleCheckIn (ONE_DAY_MS + 50) ⟨"u2", "v@e", "V", 7, 0, some 5⟩).user,
        true⟩ := by
  have h := checkIn_once_per_calendar_day (ONE_DAY_MS + 50) 5
    ⟨"u2", "v@e", "V", 7, 0, some 5⟩ rfl (by decide)
  exact ⟨h.1.trans (by decide), h.2 (ONE_DAY_MS + 900) (by decide)⟩

/-! ## Claims about admission control and duplicate detection -/

/-- C6: admission is decided by the exact inequality
`storageUsed + candidateSize <= effectiveQuota`: for a supported,
non-duplicate candidate, a payload making the sum exactly equal to the
quota is admitted (a `MediaItem` is created and persisted), while a payload
making the sum `effectiveQuota + 1` is rejected and not persisted (the
store is unchanged; nothing re-enqueues the file). -/
theorem admission_exact_boundary (user : User) (snapshot : List MediaItem)
    (k : Nat) (nowTs : Int) (f : FileData)
    (hmime : (strStartsWith f.mime "image/" || strStartsWith f.mime "video/") = true)
    (hnodup : snapshot.any
      (fun it => it.userId == user.id && it.url == f.payload) = false) :
    ((getStorageUsed user snapshot : Int) + f.payload.length =
        totalStorageLimit user →
      processFileItem user snapshot (totalStorageLimit user) k nowTs f =
        .success
          { id := k
            userId := user.id
            type := if strStartsWith f.mime "image/" then .image else .video
            url := f.payload
            title := f.name
            timestamp := nowTs }) ∧
    ((getStorageUsed user snapshot : Int) + f.payload.length =
        totalStorageLimit user + 1 →
      processFileItem user snapshot (totalStorageLimit user) k nowTs f =
          .rejected ∧
      ∀ st : BatchState,
        (stepFile user snapshot (totalStorageLimit user) nowTs k st f).store =
          st.store) := by
  constructor
  · intro heq
    simp only [processFileItem, hmime, if_true, hnodup, Bool.false_eq_true,
      if_false]
    rw [if_neg (by omega)]
  · intro heq
    have hrej : processFileItem user snapshot (totalStorageLimit user) k nowTs f =
        .rejected := by
      simp only [processFileItem, hmime, if_true, hnodup, Bool.false_eq_true,
        if_false]
      rw [if_pos (by omega)]
    refine ⟨hrej, fun st => ?_⟩
    simp [stepFile, hrej]

theorem admission_exact_boundary_witness :
    processFileItem ⟨"u1", "u@e", "U", 0, 20 - BASE_STORAGE_BYTES, none⟩ []
        (totalStorageLimit ⟨"u1", "u@e", "U", 0, 20 - BASE_STORAGE_BYTES, none⟩)
        0 99 ⟨"a.png", "image/png", "aaaaaaaaaaaaaaaaaaaa"⟩ =
      .success ⟨0, "u1", MediaType.image, "aaaaaaaaaaaaaaaaaaaa", "a.png", 99⟩ ∧
    processFileItem ⟨"u1", "u@e", "U", 0, 20 - BASE_STORAGE_BYTES, none⟩ []
        (totalStorageLimit ⟨"u1", "u@e", "U", 0, 20 - BASE_STORAGE_BYTES, none⟩)
        0 99 ⟨"c.png", "image/png", "ccccccccccccccccccccc"⟩ = .rejected := by
  refine ⟨((admission_exact_boundary ⟨"u1", "u@e", "U", 0, 20 - BASE_STORAGE_BYTES, none⟩
      [] 0 99 ⟨"a.png", "image/png", "aaaaaaaaaaaaaaaaaaaa"⟩ (by decide)
      (by decide)).1 (by decide)).trans (by decide), ?_⟩
  exact ((admission_exact_boundary ⟨"u1", "u@e", "U", 0, 20 - BASE_STORAGE_BYTES, none⟩
      [] 0 99 ⟨"c.png", "image/png", "ccccccccccccccccccccc"⟩ (by decide)
      (by decide)).2 (by decide)).1

/-- C9: a supported file whose fully-read payload is byte-for-byte equal to
the `url` of an existing `MediaItem` owned by the current user is reported
as a duplicate: no new `MediaItem` is created (the store — and hence the
user's storage used — is unchanged), the duplicate counter is incremented
by exactly 1, and the batch progress counter still advances by 1. -/
theorem duplicate_skip (user : User) (snapshot : List MediaItem) (limit : Int)
    (k : Nat) (nowTs : Int) (f : FileData) (st : BatchState)
    (hmime : (strStartsWith f.mime "image/" || strStartsWith f.mime "video/") = true)
    (hdup : ∃ it ∈ snapshot, it.userId = user.id ∧ it.url = f.payload) :
    processFileItem user snapshot limit k nowTs f = .duplicate ∧
    (stepFile user snapshot limit nowTs k st f).store = st.store ∧
    (stepFile user snapshot limit nowTs k st f).duplicateCount =
      st.duplicateCount + 1 ∧
    (stepFile user snapshot limit nowTs k st f).progress = st.progress + 1 ∧
    getStorageUsed user (stepFile user snapshot limit nowTs k st f).store =
      getStorageUsed user st.store := by
  obtain ⟨it, hmem, hid, hurl⟩ := hdup
  have hany : snapshot.any
      (fun it => it.userId == user.id && it.url == f.payload) = true :=
    List.any_eq_true.mpr ⟨it, hmem, by simp [hid, hurl]⟩
  have hd : processFileItem user snapshot limit k nowTs f = .duplicate := by
    simp only [processFileItem, hmime, if_true, hany]
  refine ⟨hd, ?_⟩
  simp [stepFile, hd]

theorem duplicate_skip_witness :
    processFileItem ⟨"u1", "u@e", "U", 0, 0, none⟩
        [⟨99, "u1", MediaType.image, "aaaa", "old", 0⟩] BASE_STORAGE_BYTES
        0 100 ⟨"a.png", "image/png", "aaaa"⟩ = .duplicate ∧
    stepFile ⟨"u1", "u@e", "U", 0, 0, none⟩
        [⟨99, "u1", MediaType.image, "aaaa", "old", 0⟩] BASE_STORAGE_BYTES
        100 0 ⟨[⟨99, "u1", MediaType.image, "aaaa", "old", 0⟩], 0, 0⟩
        ⟨"a.png", "image/png", "aaaa"⟩ =
      ⟨[⟨99, "u1", MediaType.image, "aaaa", "old", 0⟩], 1, 1⟩ := by
  have h := duplicate_skip ⟨"u1", "u@e", "U", 0, 0, none⟩
    [⟨99, "u1", MediaType.image, "aaaa", "old", 0⟩] BASE_STORAGE_BYTES 0 100
    ⟨"a.png", "image/png", "aaaa"⟩
    ⟨[⟨99, "u1", MediaType.image, "aaaa", "old", 0⟩], 0, 0⟩
    (by decide) ⟨⟨99, "u1", MediaType.image, "aaaa", "old", 0⟩, by decide,
      rfl, rfl⟩
  exact ⟨h.1, by decide⟩

/-! ## Claims about batch partition and scheduling -/

theorem immediateFiles_append (a b : List UploadEvent) :
    immediateFiles (a ++ b) = immediateFiles a ++ immediateFiles b := by
  simp [immediateFiles]

theorem queuedFiles_append (a b : List UploadEvent) :
    queuedFiles (a ++ b) = queuedFiles a ++ queuedFiles b := by
  simp [queuedFiles]

theorem interDelayCount_append (a b : List UploadEvent) :
    interDelayCount (a ++ b) = interDelayCount a + interDelayCount b := by
  simp [interDelayCount]

theorem immediateFiles_map_immediate (l : List FileData) :
    immediateFiles (l.map UploadEvent.immediate) = l := by
  induction l with
  | nil => rfl
  | cons f tl ih => simpa [immediateFiles] using ih

theorem immediateFiles_queuedEvents (l : List FileData) :
    immediateFiles (queuedEvents l) = [] := by
  induction l with
  | nil => rfl
  | cons f tl ih =>
    cases tl with
    | nil => rfl
    | cons g rest => simpa [queuedEvents, immediateFiles] using ih

theorem queuedFiles_map_immediate (l : List FileData) :
    queuedFiles (l.map UploadEvent.immediate) = [] := by
  induction l with
  | nil => rfl
  | cons f tl ih => simp [queuedFiles]

theorem queuedFiles_queuedEvents (l : List FileData) :
    queuedFiles (queuedEvents l) = l := by
  induction l with
  | nil => rfl
  | cons f tl ih =>
    cases tl with
    | nil => rfl
    | cons g rest => simpa [queuedEvents, queuedFiles] using ih

theorem interDelayCount_map_immediate (l : List FileData) :
    interDelayCount (l.map UploadEvent.immediate) = 0 := by
  induction l with
  | nil => rfl
  | cons f tl ih => simp [interDelayCount]

theorem interDelayCount_queuedEvents (l : List FileData) :
    interDelayCount (queuedEvents l) = l.length - 1 := by
  induction l with
  | nil => rfl
  | cons f tl ih =>
    cases tl with
    | nil => rfl
    | cons g rest =>
      simp [queuedEvents, interDelayCount, List.filter_cons] at ih ⊢
      omega

theorem queuedEvents_eq_intersperse (l : List FileData) :
    queuedEvents l =
      (l.map UploadEvent.queued).intersperse
        (.interDelay SEQUENTIAL_DELAY) := by
  induction l with
  | nil => rfl
  | cons f tl ih =>
    cases tl with
    | nil => rfl
    | cons g rest =>
      simp only [queuedEvents, List.map, List.intersperse] at ih ⊢
      rw [ih]

/-- C8: `handleFileUpload` partitions a batch at `K = 2`: exactly the first
two files are processed in the immediate lane in input order; all remaining
files form the queued lane in original order; the queued lane is the files
in order with one `SEQUENTIAL_DELAY` after each file except the last; and
for a five-file batch the full schedule is: two immediate files, the
`INITIAL_QUEUE_DELAY`, then `files[2..4]` each separated by a
`SEQUENTIAL_DELAY`. -/
theorem upload_schedule_partition_k2 (files : List FileData) :
    immediateFiles (uploadSchedule files) = files.take 2 ∧
    queuedFiles (uploadSchedule files) = files.drop 2 ∧
    queuedEvents (files.drop 2) =
      ((files.drop 2).map UploadEvent.queued).intersperse
        (.interDelay SEQUENTIAL_DELAY) ∧
    interDelayCount (uploadSchedule files) = (files.drop 2).length - 1 ∧
    ∀ f0 f1 f2 f3 f4 : FileData,
      uploadSchedule [f0, f1, f2, f3, f4] =
        [.immediate f0, .immediate f1, .startQueueDelay INITIAL_QUEUE_DELAY,
          .queued f2, .interDelay SEQUENTIAL_DELAY, .queued f3,
          .interDelay SEQUENTIAL_DELAY, .queued f4] := by
  refine ⟨?_, ?_, queuedEvents_eq_intersperse _, ?_, fun f0 f1 f2 f3 f4 => rfl⟩
  · unfold uploadSchedule
    rw [immediateFiles_append, immediateFiles_map_immediate]
    split
    · simp [immediateFiles]
    · simpa [immediateFiles] using immediateFiles_queuedEvents (files.drop 2)
  · unfold uploadSchedule
    rw [queuedFiles_append, queuedFiles_map_immediate]
    split
    · rename_i hnil
      simp [queuedFiles, hnil]
    · simpa [queuedFiles] using queuedFiles_queuedEvents (files.drop 2)
  · unfold uploadSchedule
    rw [interDelayCount_append, interDelayCount_map_immediate]
    split
    · rename_i hnil
      simp [interDelayCount, hnil]
    · simpa [interDelayCount] using interDelayCount_queuedEvents (files.drop 2)

/-! ## Claims about batch-wide quota accounting -/

/-- A successful `processFileItem` passed the admission check against the
snapshot: the snapshot usage plus the created item's `url.length` is within
the limit (the created item's `url` is the file's payload). -/
theorem processFileItem_success_bound (user : User) (snapshot : List MediaItem)
    (limit : Int) (k : Nat) (nowTs : Int) (f : FileData) (item : MediaItem)
    (h : processFileItem user snapshot limit k nowTs f = .success item) :
    (getStorageUsed user snapshot : Int) + item.url.length ≤ limit := by
  simp only [processFileItem] at h
  split at h
  · split at h
    · exact absurd h (by simp)
    · split at h
      · exact absurd h (by simp)
      · rename_i hle
        cases h
        dsimp only
        omega
  · exact absurd h (by simp)

/-- Every item in the store after a batch run is either from the initial
state or was created by a successful `processFileItem` call. -/
theorem runBatchAux_store_mem (user : User) (snapshot : List MediaItem)
    (limit : Int) (nowTs : Int) (fs : List FileData) (k : Nat)
    (st : BatchState) (item : MediaItem)
    (h : item ∈ (runBatchAux user snapshot limit nowTs fs k st).store) :
    item ∈ st.store ∨ ∃ j f,
      processFileItem user snapshot limit j nowTs f = .success item := by
  induction fs generalizing k st with
  | nil => exact Or.inl h
  | cons f rest ih =>
    rcases ih (k + 1) (stepFile user snapshot limit nowTs k st f) h with h' | h'
    · unfold stepFile at h'
      split at h'
      · rename_i it hp
        rcases List.mem_append.mp h' with h'' | h''
        · exact Or.inl h''
        · exact Or.inr ⟨k, f, by rw [hp, List.mem_singleton.mp h'']⟩
      · exact Or.inl h'
      · exact Or.inl h'
    · exact Or.inr h'

/-- C1 counterexample: a batch of two 20-byte image files uploaded by a user
whose effective quota is 20 bytes.  Each file individually fits, so both are
admitted and persisted — but the admission check for the second file reads
the `currentStorageUsed` memo captured by the render that created
`handleFileUpload`, which does not reflect the first file of the same batch.
After the batch, the user's storage used is 40 > 20: the claimed invariant
(`storageUsed` never exceeds `effectiveQuota` at the moment an upload is
admitted, with earlier batch files reflected) is violated at this input. -/
theorem batch_overruns_quota_counterexample :
    (runBatch ⟨"u1", "u@e", "U", 0, 20 - BASE_STORAGE_BYTES, none⟩ [] 100
        [⟨"a.png", "image/png", "aaaaaaaaaaaaaaaaaaaa"⟩,
          ⟨"b.png", "image/png", "bbbbbbbbbbbbbbbbbbbb"⟩]).store.length = 2 ∧
    (runBatch ⟨"u1", "u@e", "U", 0, 20 - BASE_STORAGE_BYTES, none⟩ [] 100
        [⟨"a.png", "image/png", "aaaaaaaaaaaaaaaaaaaa"⟩,
          ⟨"b.png", "image/png", "bbbbbbbbbbbbbbbbbbbb"⟩]).duplicateCount = 0 ∧
    totalStorageLimit ⟨"u1", "u@e", "U", 0, 20 - BASE_STORAGE_BYTES, none⟩ <
      (getStorageUsed ⟨"u1", "u@e", "U", 0, 20 - BASE_STORAGE_BYTES, none⟩
        (runBatch ⟨"u1", "u@e", "U", 0, 20 - BASE_STORAGE_BYTES, none⟩ [] 100
          [⟨"a.png", "image/png", "aaaaaaaaaaaaaaaaaaaa"⟩,
            ⟨"b.png", "image/png", "bbbbbbbbbbbbbbbbbbbb"⟩]).store : Int) := by
  decide

/-- C1 amended: admission for every file of a batch is checked against the
media snapshot captured when the batch began, not against the running total:
every `MediaItem` persisted by the batch satisfies
`snapshotUsed + url.length <= effectiveQuota` where `snapshotUsed` is the
storage used at batch start.  Quota consumed by earlier admitted files of
the same batch is NOT reflected in later checks, so the per-user total after
a batch may exceed `effectiveQuota`. -/
theorem admitted_item_fits_snapshot_quota (user : User)
    (snapshot : List MediaItem) (nowTs : Int) (files : List FileData)
    (item : MediaItem)
    (hmem : item ∈ (runBatch user snapshot nowTs files).store)
    (hnew : item ∉ snapshot) :
    (getStorageUsed user snapshot : Int) + item.url.length ≤
      totalStorageLimit user := by
  rcases runBatchAux_store_mem user snapshot (totalStorageLimit user) nowTs
      files 0 ⟨snapshot, 0, 0⟩ item hmem with h | ⟨j, f, h⟩
  · exact absurd h hnew
  · exact processFileItem_success_bound user snapshot (totalStorageLimit user)
      j nowTs f item h

theorem admitted_item_fits_snapshot_quota_witness :
    ⟨0, "u1", MediaType.image, "aaaaaaaaaaaaaaaaaaaa", "a.png", 100⟩ ∈
        (runBatch ⟨"u1", "u@e", "U", 0, 20 - BASE_STORAGE_BYTES, none⟩ [] 100
          [⟨"a.png", "image/png", "aaaaaaaaaaaaaaaaaaaa"⟩]).store ∧
    (getStorageUsed ⟨"u1", "u@e", "U", 0, 20 - BASE_STORAGE_BYTES, none⟩ [] :
        Int) +
        (MediaItem.url
          ⟨0, "u1", MediaType.image, "aaaaaaaaaaaaaaaaaaaa", "a.png", 100⟩).length ≤
      totalStorageLimit ⟨"u1", "u@e", "U", 0, 20 - BASE_STORAGE_BYTES, none⟩ :=
  ⟨by decide,
    admitted_item_fits_snapshot_quota
      ⟨"u1", "u@e", "U", 0, 20 - BASE_STORAGE_BYTES, none⟩ [] 100
      [⟨"a.png", "image/png", "aaaaaaaaaaaaaaaaaaaa"⟩]
      ⟨0, "u1", MediaType.image, "aaaaaaaaaaaaaaaaaaaa", "a.png", 100⟩
      (by decide) (by decide)⟩

/-- C10: within-batch duplicates are not detected.  A batch of two files
with identical payloads, neither matching any pre-existing item of the user
(here the snapshot is empty), passes the duplicate check twice — the check
compares only against the batch-start snapshot — and both files are
persisted as two distinct `MediaItem` records (ids 0 and 1) with the same
`url`, with the duplicate counter still 0. -/
theorem within_batch_duplicates_both_persisted :
    runBatch ⟨"u1", "u@e", "U", 0, 0, none⟩ [] 100
        [⟨"a.png", "image/png", "aaaa"⟩, ⟨"a.png", "image/png", "aaaa"⟩] =
      ⟨[⟨0, "u1", MediaType.image, "aaaa", "a.png", 100⟩,
          ⟨1, "u1", MediaType.image, "aaaa", "a.png", 100⟩], 0, 2⟩ := by
  decide

end Lumina
